import Mathlib

/-!
Verification of the ATM account service (Validator / Store / Operations).

Shallow embedding of the core of the repository:

* `src/src/models/Account.ts` — `Account`, `ValidationResult`, `AccountValidator`
  (`validateAccount`, `isValidAccountNumber`, `isValidBalance`, `isValidAmount`,
  `formatBalance`, `createAccount`);
* `src/src/services/DataStore.ts` — the in-memory `Map`-backed store
  (`getAccount`, `updateAccount`, `createAccount`, `deleteAccount`,
  `getAllAccounts`, the seeded initial state);
* `src/services/AccountService.ts` — `getBalance`, `withdraw`, `deposit` and the
  typed error classes.

Embedding choices, stated once here:

* JavaScript numbers are idealised as exact rationals (`ℚ`).  All the arithmetic
  the core performs (`+`, `-`, `* 100`, `/ 100`, `Math.round`) is exact at the
  magnitudes the claims quantify over; `Math.round x` is the integer closest to
  `x` with ties toward `+∞`, i.e. `⌊x + 1/2⌋`, which `jround` defines.  The
  `isNaN`/`isFinite` guards of the validator are vacuously true on `ℚ`; a second,
  extended number model (`EN`, further down) makes them meaningful and captures
  IEEE-754 overflow of `+` to `Infinity` for the one claim that is about it.
* JavaScript `Map` is an association list with insertion-order keys; `set`
  replaces in place, `get` finds the unique entry, `delete` removes it.
* `throw` / `try` is `Except`: every state-mutating method returns its result
  together with the store it leaves behind, so "a failed call left the store
  unchanged" is a real statement about the embedding, not a typing artifact.
* JavaScript object references (the fact that `DataStore.getAccount` hands out
  the stored object itself) are modelled separately by a small heap of
  references (`RefState`, further down) for the one claim about aliasing.
-/

/-- The whitespace characters recognised by JavaScript `String.prototype.trim`
(the ASCII whitespace and line terminators, plus NBSP and the Unicode line and
paragraph separators; the exotic `Zs` code points never occur in the claims). -/
def isJsWs (c : Char) : Bool :=
  c = ' ' || c = '\t' || c = '\n' || c = '\r' || c.toNat = 0xb || c.toNat = 0xc
    || c.toNat = 0xa0 || c.toNat = 0x2028 || c.toNat = 0x2029 || c.toNat = 0xfeff

/-- Trim on the character list: drop whitespace from the front, then from the
back. -/
def jsTrimList (l : List Char) : List Char :=
  ((l.dropWhile isJsWs).reverse.dropWhile isJsWs).reverse

/-- Model of JavaScript `String.prototype.trim`. -/
def jsTrim (s : String) : String :=
  String.mk (jsTrimList s.data)

section AssocMap

variable {κ α : Type} [DecidableEq κ]

/-- Model of `Map.get`: the value stored at key `k`, if any. -/
def mapGet (m : List (κ × α)) (k : κ) : Option α :=
  (m.find? (fun p => p.1 = k)).map (fun p => p.2)

/-- Model of `Map.has`. -/
def mapHas (m : List (κ × α)) (k : κ) : Bool :=
  m.any (fun p => p.1 = k)

/-- Model of `Map.set`: replace in place if the key is present, else append. -/
def mapSet (m : List (κ × α)) (k : κ) (v : α) : List (κ × α) :=
  match m with
  | [] => [(k, v)]
  | p :: rest => if p.1 = k then (k, v) :: rest else p :: mapSet rest k v

/-- Model of `Map.delete`: whether an entry was removed, and the remaining map. -/
def mapErase (m : List (κ × α)) (k : κ) : Bool × List (κ × α) :=
  match m with
  | [] => (false, [])
  | p :: rest =>
    if p.1 = k then (true, rest)
    else
      let r := mapErase rest k
      (r.1, p :: r.2)

end AssocMap

/-- Source `Account` from `src/src/models/Account.ts`: `{account_number, balance}`. -/
structure Account where
  account_number : String
  balance : ℚ
deriving DecidableEq, Repr

/-- Source `ValidationResult` from `src/src/models/Account.ts`. -/
structure ValidationResult where
  isValid : Bool
  errors : List String
deriving DecidableEq, Repr

/-- Source `AccountValidator.isValidAccountNumber`: the trimmed string matches
`^\d{6,12}$` (6 to 12 ASCII digits, nothing else). -/
def AccountValidator.isValidAccountNumber (accountNumber : String) : Bool :=
  let t := jsTrimList accountNumber.data
  decide (6 ≤ t.length) && decide (t.length ≤ 12) && t.all Char.isDigit

/-- Source `AccountValidator.isValidBalance`: not NaN, finite, and `≥ 0`.  On the exact
rational model the NaN/finiteness guards are vacuous, leaving `0 ≤ balance`. -/
def AccountValidator.isValidBalance (balance : ℚ) : Bool :=
  decide (0 ≤ balance)

/-- Source `AccountValidator.isValidAmount`: not NaN, finite, and `> 0`.  On the exact
rational model the NaN/finiteness guards are vacuous, leaving `0 < amount`. -/
def AccountValidator.isValidAmount (amount : ℚ) : Bool :=
  decide (0 < amount)

/-- JavaScript `Math.round`: the integer closest to `x`, ties toward `+∞`. -/
def jround (x : ℚ) : ℤ :=
  ⌊x + 1/2⌋

/-- Source `AccountValidator.formatBalance`: `Math.round(balance * 100) / 100`. -/
def AccountValidator.formatBalance (balance : ℚ) : ℚ :=
  (jround (balance * 100) : ℚ) / 100

/-- Source `AccountValidator.validateAccount` specialised to a well-typed `Account`
argument (the `typeof`/`undefined`/`null` branches of the source are vacuous
for a typed record; the remaining checks are the truthiness test on
`account_number` — false exactly on the empty string — the account-number
format check, and the balance validity check).  Error messages are accumulated
in source order. -/
def AccountValidator.validateAccount (account : Account) : ValidationResult :=
  let errors : List String :=
    (if account.account_number = "" then ["Account number is required"]
     else if !(AccountValidator.isValidAccountNumber account.account_number) then
       ["Account number must be a non-empty string with valid format"]
     else [])
    ++
    (if !(AccountValidator.isValidBalance account.balance) then
       ["Balance must be a valid number (not NaN or Infinity)"]
     else [])
  { isValid := errors.isEmpty, errors := errors }

/-- The error values the service layer can raise, one constructor per `throw`
class in the source: plain `Error(msg)`, `AccountNotFoundError`,
`InsufficientFundsError` (which records the account, the requested amount and
the available balance), and `InvalidAmountError`. -/
inductive Err where
  | error (msg : String)
  | accountNotFoundError (accountNumber : String)
  | insufficientFundsError (accountNumber : String) (requested available : ℚ)
  | invalidAmountError (msg : String)
deriving DecidableEq, Repr

/-- Source `AccountValidator.createAccount`: validate `{account_number, balance}` and
on success return the normalised account `{trimmed number, formatted balance}`;
on failure throw `Invalid account data: ...`. -/
def AccountValidator.createAccount (account_number : String) (balance : ℚ) :
    Except Err Account :=
  let validation := AccountValidator.validateAccount ⟨account_number, balance⟩
  if !validation.isValid then
    .error (.error ("Invalid account data: " ++ String.intercalate ", " validation.errors))
  else
    .ok ⟨jsTrim account_number, AccountValidator.formatBalance balance⟩

/-- The store state: the `Map<string, Account>` of `DataStore`. -/
abbrev Store := List (String × Account)

/-- Source `DataStore.getAccount`: `null` for an empty account number, otherwise look
up the trimmed account number.  (This models the value read; the fact that the
source returns the stored object itself rather than a copy is modelled by the
reference model further down.) -/
def DataStore.getAccount (s : Store) (accountNumber : String) : Option Account :=
  if accountNumber = "" then none
  else mapGet s (jsTrim accountNumber)

/-- Source `DataStore.updateAccount`: validate, require the (untrimmed)
`account_number` to be a present key, then store
`{account_number, formatBalance balance}` under that key. -/
def DataStore.updateAccount (s : Store) (account : Account) :
    Except Err Unit × Store :=
  let validation := AccountValidator.validateAccount account
  if !validation.isValid then
    (.error (.error ("Cannot update account: " ++ String.intercalate ", " validation.errors)), s)
  else if !(mapHas s account.account_number) then
    (.error (.error ("Account " ++ account.account_number ++ " does not exist")), s)
  else
    (.ok (), mapSet s account.account_number
      ⟨account.account_number, AccountValidator.formatBalance account.balance⟩)

/-- Source `DataStore.createAccount`: trim, fail if the key exists, validate and
normalise through `AccountValidator.createAccount`, store under the trimmed
key. -/
def DataStore.createAccount (s : Store) (accountNumber : String) (initialBalance : ℚ) :
    Except Err Account × Store :=
  let trimmedAccountNumber := jsTrim accountNumber
  if mapHas s trimmedAccountNumber then
    (.error (.error ("Account " ++ trimmedAccountNumber ++ " already exists")), s)
  else
    match AccountValidator.createAccount trimmedAccountNumber initialBalance with
    | .error e => (.error e, s)
    | .ok account => (.ok account, mapSet s trimmedAccountNumber account)

/-- Source `DataStore.deleteAccount`: `false` for an empty account number, otherwise
delete the trimmed key, reporting whether an entry was removed. -/
def DataStore.deleteAccount (s : Store) (accountNumber : String) : Bool × Store :=
  if accountNumber = "" then (false, s)
  else mapErase s (jsTrim accountNumber)

/-- Source `DataStore.getAllAccounts`: the stored values in insertion order. -/
def DataStore.getAllAccounts (s : Store) : List Account :=
  s.map (fun p => p.2)

/-- The five seeded test accounts of `DataStore`. -/
def testAccounts : List (String × ℚ) :=
  [("123456789", 1000.00), ("987654321", 2500.50), ("555666777", 100.25),
   ("111222333", 5000.00), ("999888777", 750.75)]

/-- The seeded initial store: the source method (`DataStore`, lines 33-56)
clears the map and adds each test account through
`AccountValidator.createAccount`, skipping any that fails validation, keyed by
the (untrimmed) seed account number. -/
def initialStore : Store :=
  testAccounts.foldl
    (fun s p =>
      match AccountValidator.createAccount p.1 p.2 with
      | .ok account => mapSet s p.1 account
      | .error _ => s)
    []

/-- Source `AccountService.getBalance` (`src/services/AccountService.ts`): reject an
empty account number, trim, reject a bad format, look the account up, and
return a value copy `{account_number, balance}`.  The method never writes, so
it does not return a store. -/
def AccountService.getBalance (s : Store) (accountNumber : String) :
    Except Err Account :=
  if accountNumber = "" then .error (.error "Account number must be a non-empty string")
  else
    let trimmedAccountNumber := jsTrim accountNumber
    if !(AccountValidator.isValidAccountNumber trimmedAccountNumber) then
      .error (.error "Invalid account number format")
    else
      match DataStore.getAccount s trimmedAccountNumber with
      | none => .error (.accountNotFoundError trimmedAccountNumber)
      | some account => .ok ⟨account.account_number, account.balance⟩

/-- Source `AccountService.withdraw`: input checks, format check, amount check, lookup,
sufficient-funds check (`balance < amount` fails), then
`newBalance = formatBalance (balance - amount)` written back through
`DataStore.updateAccount` (whose exception, were it to throw, would propagate
with the store it left).  The `typeof amount` check of the source is vacuous
for a typed argument. -/
def AccountService.withdraw (s : Store) (accountNumber : String) (amount : ℚ) :
    Except Err Account × Store :=
  if accountNumber = "" then (.error (.error "Account number must be a non-empty string"), s)
  else
    let trimmedAccountNumber := jsTrim accountNumber
    if !(AccountValidator.isValidAccountNumber trimmedAccountNumber) then
      (.error (.error "Invalid account number format"), s)
    else if !(AccountValidator.isValidAmount amount) then
      (.error (.invalidAmountError "Amount must be greater than zero"), s)
    else
      match DataStore.getAccount s trimmedAccountNumber with
      | none => (.error (.accountNotFoundError trimmedAccountNumber), s)
      | some account =>
        if account.balance < amount then
          (.error (.insufficientFundsError trimmedAccountNumber amount account.balance), s)
        else
          let newBalance := AccountValidator.formatBalance (account.balance - amount)
          let updatedAccount : Account := ⟨account.account_number, newBalance⟩
          match DataStore.updateAccount s updatedAccount with
          | (.error e, s1) => (.error e, s1)
          | (.ok _, s1) => (.ok updatedAccount, s1)

/-- Source `AccountService.deposit`: same validation as `withdraw` but no
sufficient-funds check; `newBalance = formatBalance (balance + amount)`. -/
def AccountService.deposit (s : Store) (accountNumber : String) (amount : ℚ) :
    Except Err Account × Store :=
  if accountNumber = "" then (.error (.error "Account number must be a non-empty string"), s)
  else
    let trimmedAccountNumber := jsTrim accountNumber
    if !(AccountValidator.isValidAccountNumber trimmedAccountNumber) then
      (.error (.error "Invalid account number format"), s)
    else if !(AccountValidator.isValidAmount amount) then
      (.error (.invalidAmountError "Amount must be greater than zero"), s)
    else
      match DataStore.getAccount s trimmedAccountNumber with
      | none => (.error (.accountNotFoundError trimmedAccountNumber), s)
      | some account =>
        let newBalance := AccountValidator.formatBalance (account.balance + amount)
        let updatedAccount : Account := ⟨account.account_number, newBalance⟩
        match DataStore.updateAccount s updatedAccount with
        | (.error e, s1) => (.error e, s1)
        | (.ok _, s1) => (.ok updatedAccount, s1)

instance {ε α : Type} [DecidableEq ε] [DecidableEq α] : DecidableEq (Except ε α) := fun a b =>
  match a, b with
  | .ok x, .ok y =>
    if h : x = y then .isTrue (by rw [h]) else .isFalse (by intro hc; cases hc; exact h rfl)
  | .error x, .error y =>
    if h : x = y then .isTrue (by rw [h]) else .isFalse (by intro hc; cases hc; exact h rfl)
  | .ok _, .error _ => .isFalse (by intro hc; cases hc)
  | .error _, .ok _ => .isFalse (by intro hc; cases hc)

/-- Evaluation rule for `jround`: `jround x = k` iff `x + 1/2` lies in `[k, k+1)`. -/
theorem jround_eq_iff {x : ℚ} {k : ℤ} :
    jround x = k ↔ (k : ℚ) ≤ x + 1/2 ∧ x + 1/2 < (k : ℚ) + 1 := by
  rw [jround, Int.floor_eq_iff]

/-- Evaluation rule for `formatBalance` at a concrete argument. -/
theorem formatBalance_eq {q : ℚ} {k : ℤ} (h1 : (k : ℚ) ≤ q * 100 + 1/2)
    (h2 : q * 100 + 1/2 < (k : ℚ) + 1) :
    AccountValidator.formatBalance q = (k : ℚ) / 100 := by
  rw [AccountValidator.formatBalance, jround_eq_iff.2 ⟨h1, h2⟩]

/-! Section: Lemmas about trimming -/

theorem dropWhile_head_false {α : Type} {p : α → Bool} {l : List α} {a : α}
    (h : (l.dropWhile p).head? = some a) : p a = false := by
  have hh := List.head?_dropWhile_not p l
  rw [h] at hh
  exact hh

theorem dropWhile_eq_self_of_head {α : Type} {p : α → Bool} {l : List α}
    (h : ∀ a, l.head? = some a → p a = false) : l.dropWhile p = l := by
  cases l with
  | nil => rfl
  | cons x xs => simp [List.dropWhile_cons, h x rfl]

theorem jsTrimList_idem (l : List Char) : jsTrimList (jsTrimList l) = jsTrimList l := by
  set p := isJsWs with hp
  set F := l.dropWhile p with hF
  set R := F.reverse.dropWhile p with hR
  have htriml : jsTrimList l = R.reverse := rfl
  obtain ⟨u, hu⟩ := List.dropWhile_suffix (l := F.reverse) p
  have hFu : F = R.reverse ++ u.reverse := by
    have := congrArg List.reverse hu
    rw [List.reverse_append, List.reverse_reverse] at this
    exact this.symm
  have hhead : ∀ a, R.reverse.head? = some a → p a = false := by
    intro a ha
    apply dropWhile_head_false (l := l) (p := p)
    rw [← hF, hFu]
    rw [List.head?_append, ha]
    rfl
  have h1 : R.reverse.dropWhile p = R.reverse := dropWhile_eq_self_of_head hhead
  have h2 : R.dropWhile p = R := by
    apply dropWhile_eq_self_of_head
    intro a ha
    exact dropWhile_head_false (l := F.reverse) (p := p) ha
  rw [htriml, jsTrimList, h1, List.reverse_reverse, h2]

theorem data_jsTrim (s : String) : (jsTrim s).data = jsTrimList s.data := rfl

theorem jsTrim_idem (s : String) : jsTrim (jsTrim s) = jsTrim s :=
  congrArg String.mk (jsTrimList_idem s.data)

theorem isValidAccountNumber_jsTrim (s : String) :
    AccountValidator.isValidAccountNumber (jsTrim s) =
      AccountValidator.isValidAccountNumber s := by
  rw [AccountValidator.isValidAccountNumber, AccountValidator.isValidAccountNumber,
    data_jsTrim, jsTrimList_idem]

theorem jsTrim_ne_empty {s : String}
    (h : AccountValidator.isValidAccountNumber s = true) : jsTrim s ≠ "" := by
  intro he
  have hd : jsTrimList s.data = [] := by
    have := congrArg String.data he
    rw [data_jsTrim] at this
    exact this
  rw [AccountValidator.isValidAccountNumber, hd] at h
  simp at h

/-! Section: Lemmas about the association-list map -/

section AssocMapLemmas

variable {κ α : Type} [DecidableEq κ]

theorem mem_of_mapGet_eq_some {m : List (κ × α)} {k : κ} {v : α}
    (h : mapGet m k = some v) : (k, v) ∈ m := by
  rw [mapGet] at h
  cases hf : m.find? (fun p => p.1 = k) with
  | none => rw [hf] at h; cases h
  | some p =>
    rw [hf] at h
    have hp := List.find?_some hf
    have hm := List.mem_of_find?_eq_some hf
    cases h
    have : p.1 = k := by simpa using hp
    rw [← this]
    exact hm

theorem mapHas_of_mapGet_eq_some {m : List (κ × α)} {k : κ} {v : α}
    (h : mapGet m k = some v) : mapHas m k = true := by
  rw [mapHas, List.any_eq_true]
  exact ⟨(k, v), mem_of_mapGet_eq_some h, by simp⟩

theorem mapGet_cons (p : κ × α) (m : List (κ × α)) (q : κ) :
    mapGet (p :: m) q = if p.1 = q then some p.2 else mapGet m q := by
  by_cases h : p.1 = q
  · rw [if_pos h, mapGet, List.find?_cons_of_pos _ (by simp [h])]
    rfl
  · rw [if_neg h, mapGet, List.find?_cons_of_neg _ (by simp [h])]
    rfl

theorem mapGet_mapSet_self (m : List (κ × α)) (k : κ) (v : α) :
    mapGet (mapSet m k v) k = some v := by
  induction m with
  | nil => simp [mapSet, mapGet_cons]
  | cons p rest ih =>
    rw [mapSet]
    by_cases h : p.1 = k
    · rw [if_pos h, mapGet_cons]
      simp
    · rw [if_neg h, mapGet_cons, if_neg h]
      exact ih

theorem mapGet_mapSet_ne (m : List (κ × α)) {k q : κ} (v : α) (h : q ≠ k) :
    mapGet (mapSet m k v) q = mapGet m q := by
  induction m with
  | nil =>
    rw [mapSet, mapGet_cons, if_neg (fun hk => h hk.symm)]
  | cons p rest ih =>
    rw [mapSet]
    by_cases hp : p.1 = k
    · rw [if_pos hp, mapGet_cons, mapGet_cons, hp, if_neg (fun hk => h hk.symm),
        if_neg (fun hk => h hk.symm)]
    · rw [if_neg hp, mapGet_cons, mapGet_cons]
      by_cases hq : p.1 = q
      · rw [if_pos hq, if_pos hq]
      · rw [if_neg hq, if_neg hq]
        exact ih

theorem mem_mapSet {m : List (κ × α)} {k : κ} {v : α} {p : κ × α}
    (h : p ∈ mapSet m k v) : p = (k, v) ∨ p ∈ m := by
  induction m with
  | nil => simp [mapSet] at h; exact Or.inl h
  | cons q rest ih =>
    rw [mapSet] at h
    by_cases hq : q.1 = k
    · rw [if_pos hq] at h
      rcases List.mem_cons.1 h with h1 | h1
      · exact Or.inl h1
      · exact Or.inr (List.mem_cons_of_mem _ h1)
    · rw [if_neg hq] at h
      rcases List.mem_cons.1 h with h1 | h1
      · exact Or.inr (by rw [h1]; exact List.mem_cons_self _ _)
      · rcases ih h1 with h2 | h2
        · exact Or.inl h2
        · exact Or.inr (List.mem_cons_of_mem _ h2)

theorem mem_mapErase {m : List (κ × α)} {k : κ} {p : κ × α}
    (h : p ∈ (mapErase m k).2) : p ∈ m := by
  induction m with
  | nil => simp [mapErase] at h
  | cons q rest ih =>
    rw [mapErase] at h
    by_cases hq : q.1 = k
    · rw [if_pos hq] at h
      exact List.mem_cons_of_mem _ h
    · rw [if_neg hq] at h
      rcases List.mem_cons.1 h with h1 | h1
      · rw [h1]; exact List.mem_cons_self _ _
      · exact List.mem_cons_of_mem _ (ih h1)

end AssocMapLemmas

/-! Section: Characterising the validator -/

theorem isValidAccountNumber_empty : AccountValidator.isValidAccountNumber "" = false := by
  decide

/-- Lemma: `validateAccount` passes exactly when the account number has the valid
format and the balance is valid (a valid format forces a nonempty string, so
the truthiness branch adds nothing). -/
theorem validateAccount_isValid (acc : Account) :
    (AccountValidator.validateAccount acc).isValid =
      (AccountValidator.isValidAccountNumber acc.account_number &&
        AccountValidator.isValidBalance acc.balance) := by
  rw [AccountValidator.validateAccount]
  by_cases h0 : acc.account_number = ""
  · simp only [h0, if_pos rfl]
    rw [isValidAccountNumber_empty]
    by_cases hb : AccountValidator.isValidBalance acc.balance <;> simp [hb]
  · rw [if_neg h0]
    by_cases hn : AccountValidator.isValidAccountNumber acc.account_number <;>
      by_cases hb : AccountValidator.isValidBalance acc.balance <;>
        simp [hn, hb]

/-! Section: Invariants -/

/-- A rational that is a whole number of hundredths (what `formatBalance`
produces). -/
def centsLike (q : ℚ) : Prop :=
  ∃ k : ℤ, q * 100 = (k : ℚ)

/-- The invariant of claim C2: every stored account passes the full-object
check. -/
def StoreValid (s : Store) : Prop :=
  ∀ p ∈ s, (AccountValidator.validateAccount p.2).isValid = true

/-- Well-formedness of every store the running system can reach: each entry is
keyed by its own account number, keys are trimmed, every account validates, and
every balance is a whole number of hundredths. -/
def Store.WF (s : Store) : Prop :=
  ∀ p ∈ s, p.1 = p.2.account_number ∧ jsTrim p.1 = p.1 ∧
    (AccountValidator.validateAccount p.2).isValid = true ∧ centsLike p.2.balance

theorem WF_entry {s : Store} (hWF : Store.WF s) {k : String} {acc : Account}
    (h : mapGet s k = some acc) :
    acc.account_number = k ∧ jsTrim k = k ∧
      (AccountValidator.validateAccount acc).isValid = true ∧ centsLike acc.balance := by
  obtain ⟨h1, h2, h3, h4⟩ := hWF _ (mem_of_mapGet_eq_some h)
  exact ⟨h1.symm, h2, h3, h4⟩

theorem StoreValid_of_WF {s : Store} (hWF : Store.WF s) : StoreValid s :=
  fun p hp => (hWF p hp).2.2.1

/-! Section: Algebra of formatBalance -/

theorem jround_intCast (k : ℤ) : jround (k : ℚ) = k := by
  have h0 : ⌊(1/2 : ℚ)⌋ = 0 := by
    rw [Int.floor_eq_iff]
    norm_num
  rw [jround, add_comm, Int.floor_add_int, h0, zero_add]

theorem jround_nonneg {x : ℚ} (h : 0 ≤ x) : 0 ≤ jround x := by
  rw [jround]
  exact Int.le_floor.2 (by push_cast; linarith)

theorem formatBalance_nonneg {q : ℚ} (h : 0 ≤ q) :
    0 ≤ AccountValidator.formatBalance q := by
  rw [AccountValidator.formatBalance]
  apply div_nonneg _ (by norm_num)
  exact_mod_cast jround_nonneg (by positivity)

theorem centsLike_formatBalance (q : ℚ) :
    centsLike (AccountValidator.formatBalance q) := by
  refine ⟨jround (q * 100), ?_⟩
  rw [AccountValidator.formatBalance]
  field_simp

theorem formatBalance_of_centsLike {q : ℚ} (h : centsLike q) :
    AccountValidator.formatBalance q = q := by
  obtain ⟨k, hk⟩ := h
  have h100 : (100 : ℚ) ≠ 0 := by norm_num
  rw [AccountValidator.formatBalance, hk, jround_intCast, ← hk]
  field_simp

theorem formatBalance_formatBalance (q : ℚ) :
    AccountValidator.formatBalance (AccountValidator.formatBalance q) =
      AccountValidator.formatBalance q :=
  formatBalance_of_centsLike (centsLike_formatBalance q)

/-! Section: Validator-passing helper lemmas -/

theorem isValidBalance_iff {q : ℚ} : AccountValidator.isValidBalance q = true ↔ 0 ≤ q := by
  simp [AccountValidator.isValidBalance]

theorem isValidAmount_iff {q : ℚ} : AccountValidator.isValidAmount q = true ↔ 0 < q := by
  simp [AccountValidator.isValidAmount]

theorem validateAccount_isValid_of {n : String} {b : ℚ}
    (hn : AccountValidator.isValidAccountNumber n = true) (hb : 0 ≤ b) :
    (AccountValidator.validateAccount ⟨n, b⟩).isValid = true := by
  rw [validateAccount_isValid]
  simp [hn, isValidBalance_iff.2 hb]

theorem of_validateAccount_isValid {acc : Account}
    (h : (AccountValidator.validateAccount acc).isValid = true) :
    AccountValidator.isValidAccountNumber acc.account_number = true ∧ 0 ≤ acc.balance := by
  rw [validateAccount_isValid, Bool.and_eq_true] at h
  exact ⟨h.1, isValidBalance_iff.1 h.2⟩

/-! Section: Branch lemmas for the store operations -/

theorem ne_empty_of_isValidAccountNumber {t : String}
    (h : AccountValidator.isValidAccountNumber t = true) : t ≠ "" := by
  intro he
  rw [he, isValidAccountNumber_empty] at h
  cases h

theorem getAccount_eq {s : Store} {i : String} {acc : Account}
    (h : DataStore.getAccount s i = some acc) :
    i ≠ "" ∧ mapGet s (jsTrim i) = some acc := by
  rw [DataStore.getAccount] at h
  by_cases hi : i = ""
  · rw [if_pos hi] at h; cases h
  · rw [if_neg hi] at h; exact ⟨hi, h⟩

theorem updateAccount_ok {s : Store} {acc : Account}
    (hv : (AccountValidator.validateAccount acc).isValid = true)
    (hhas : mapHas s acc.account_number = true) :
    DataStore.updateAccount s acc =
      (.ok (), mapSet s acc.account_number
        ⟨acc.account_number, AccountValidator.formatBalance acc.balance⟩) := by
  simp [DataStore.updateAccount, hv, hhas]

theorem updateAccount_error_store {s : Store} {acc : Account}
    (h : (DataStore.updateAccount s acc).1.isOk = false) :
    (DataStore.updateAccount s acc).2 = s := by
  rw [DataStore.updateAccount]
  by_cases hv : (AccountValidator.validateAccount acc).isValid
  · by_cases hh : mapHas s acc.account_number
    · rw [DataStore.updateAccount] at h
      simp [hv, hh, Except.isOk, Except.toBool] at h
    · simp [hv, hh]
  · simp [hv]

theorem createAccount_error_store {s : Store} {n : String} {b : ℚ}
    (h : (DataStore.createAccount s n b).1.isOk = false) :
    (DataStore.createAccount s n b).2 = s := by
  rw [DataStore.createAccount]
  by_cases hh : mapHas s (jsTrim n)
  · simp [hh]
  · rw [DataStore.createAccount] at h
    cases hc : AccountValidator.createAccount (jsTrim n) b with
    | error e => simp [hh, hc]
    | ok account => simp [hh, hc, Except.isOk, Except.toBool] at h

/-! Section: Characterising withdraw and deposit on well-formed stores -/

theorem withdraw_facts {s : Store} {i : String} {acc : Account}
    (hWF : Store.WF s) (hget : DataStore.getAccount s i = some acc) :
    i ≠ "" ∧ mapGet s (jsTrim i) = some acc ∧ acc.account_number = jsTrim i ∧
      AccountValidator.isValidAccountNumber (jsTrim i) = true ∧
      0 ≤ acc.balance ∧ centsLike acc.balance ∧
      DataStore.getAccount s (jsTrim i) = some acc ∧
      mapHas s acc.account_number = true := by
  obtain ⟨hne, hmg⟩ := getAccount_eq hget
  obtain ⟨hn, htr, hv, hc⟩ := WF_entry hWF hmg
  obtain ⟨hnum, hbal⟩ := of_validateAccount_isValid hv
  have hfmt : AccountValidator.isValidAccountNumber (jsTrim i) = true := by
    rw [← hn]; exact hnum
  have hget2 : DataStore.getAccount s (jsTrim i) = some acc := by
    rw [DataStore.getAccount, if_neg (ne_empty_of_isValidAccountNumber hfmt), jsTrim_idem]
    exact hmg
  have hhas : mapHas s acc.account_number = true := by
    rw [hn]; exact mapHas_of_mapGet_eq_some hmg
  exact ⟨hne, hmg, hn, hfmt, hbal, hc, hget2, hhas⟩

theorem withdraw_ok {s : Store} {i : String} {a : ℚ} {acc : Account}
    (hWF : Store.WF s) (hget : DataStore.getAccount s i = some acc)
    (hamt : 0 < a) (hle : a ≤ acc.balance) :
    AccountService.withdraw s i a =
      (.ok ⟨acc.account_number, AccountValidator.formatBalance (acc.balance - a)⟩,
        mapSet s acc.account_number
          ⟨acc.account_number, AccountValidator.formatBalance (acc.balance - a)⟩) := by
  obtain ⟨hne, hmg, hn, hfmt, hbal, hc, hget2, hhas⟩ := withdraw_facts hWF hget
  have hnum : AccountValidator.isValidAccountNumber acc.account_number = true := by
    rw [hn]; exact hfmt
  have hv2 : (AccountValidator.validateAccount
      ⟨acc.account_number, AccountValidator.formatBalance (acc.balance - a)⟩).isValid = true :=
    validateAccount_isValid_of hnum (formatBalance_nonneg (by linarith))
  have hupd := updateAccount_ok (s := s) hv2 hhas
  rw [AccountService.withdraw, if_neg hne]
  simp only [hfmt, Bool.not_true, if_neg (by simp : ¬((false : Bool) = true)),
    isValidAmount_iff.2 hamt, hget2, if_neg (not_lt.2 hle)]
  rw [hupd]
  rw [formatBalance_formatBalance]

theorem withdraw_insufficient {s : Store} {i : String} {a : ℚ} {acc : Account}
    (hWF : Store.WF s) (hget : DataStore.getAccount s i = some acc)
    (hamt : 0 < a) (hlt : acc.balance < a) :
    AccountService.withdraw s i a =
      (.error (.insufficientFundsError (jsTrim i) a acc.balance), s) := by
  obtain ⟨hne, hmg, hn, hfmt, hbal, hc, hget2, hhas⟩ := withdraw_facts hWF hget
  rw [AccountService.withdraw, if_neg hne]
  simp only [hfmt, Bool.not_true, if_neg (by simp : ¬((false : Bool) = true)),
    isValidAmount_iff.2 hamt, hget2, if_pos hlt]

theorem deposit_ok {s : Store} {i : String} {a : ℚ} {acc : Account}
    (hWF : Store.WF s) (hget : DataStore.getAccount s i = some acc)
    (hamt : 0 < a) :
    AccountService.deposit s i a =
      (.ok ⟨acc.account_number, AccountValidator.formatBalance (acc.balance + a)⟩,
        mapSet s acc.account_number
          ⟨acc.account_number, AccountValidator.formatBalance (acc.balance + a)⟩) := by
  obtain ⟨hne, hmg, hn, hfmt, hbal, hc, hget2, hhas⟩ := withdraw_facts hWF hget
  have hnum : AccountValidator.isValidAccountNumber acc.account_number = true := by
    rw [hn]; exact hfmt
  have hv2 : (AccountValidator.validateAccount
      ⟨acc.account_number, AccountValidator.formatBalance (acc.balance + a)⟩).isValid = true :=
    validateAccount_isValid_of hnum (formatBalance_nonneg (by linarith))
  have hupd := updateAccount_ok (s := s) hv2 hhas
  rw [AccountService.deposit, if_neg hne]
  simp only [hfmt, Bool.not_true, if_neg (by simp : ¬((false : Bool) = true)),
    isValidAmount_iff.2 hamt, hget2]
  rw [hupd]
  rw [formatBalance_formatBalance]

theorem updateAccount_ok_store {s : Store} {acc : Account} {r : Unit} {s2 : Store}
    (hu : DataStore.updateAccount s acc = (.ok r, s2)) :
    s2 = mapSet s acc.account_number
      ⟨acc.account_number, AccountValidator.formatBalance acc.balance⟩ := by
  rw [DataStore.updateAccount] at hu
  by_cases hv : (AccountValidator.validateAccount acc).isValid
  · by_cases hh : mapHas s acc.account_number
    · simp only [hv, hh, Bool.not_true, if_neg (by simp : ¬((false : Bool) = true))] at hu
      exact (congrArg Prod.snd hu).symm
    · simp [hv, hh] at hu
  · simp [hv] at hu

theorem withdraw_error_store (s : Store) (i : String) (a : ℚ)
    (h : (AccountService.withdraw s i a).1.isOk = false) :
    (AccountService.withdraw s i a).2 = s := by
  rw [AccountService.withdraw] at h ⊢
  by_cases hne : i = ""
  · simp [hne]
  · simp only [if_neg hne] at h ⊢
    by_cases hf : AccountValidator.isValidAccountNumber (jsTrim i) = true
    · simp only [hf, Bool.not_true, if_neg (by simp : ¬((false : Bool) = true))] at h ⊢
      by_cases ha : AccountValidator.isValidAmount a = true
      · simp only [ha, Bool.not_true, if_neg (by simp : ¬((false : Bool) = true))] at h ⊢
        cases hga : DataStore.getAccount s (jsTrim i) with
        | none => simp [hga]
        | some acc =>
          simp only [hga] at h ⊢
          by_cases hlt : acc.balance < a
          · simp [hlt]
          · simp only [if_neg hlt] at h ⊢
            rcases hu : DataStore.updateAccount s
              ⟨acc.account_number, AccountValidator.formatBalance (acc.balance - a)⟩
              with ⟨r, s2⟩
            cases r with
            | error e =>
              simp only [hu] at h ⊢
              have h2 := @updateAccount_error_store s
                ⟨acc.account_number, AccountValidator.formatBalance (acc.balance - a)⟩
                (by rw [hu]; rfl)
              rw [hu] at h2
              exact h2
            | ok u =>
              simp only [hu, Except.isOk, Except.toBool] at h
              cases h
      · simp [ha]
    · simp [hf]

theorem deposit_error_store (s : Store) (i : String) (a : ℚ)
    (h : (AccountService.deposit s i a).1.isOk = false) :
    (AccountService.deposit s i a).2 = s := by
  rw [AccountService.deposit] at h ⊢
  by_cases hne : i = ""
  · simp [hne]
  · simp only [if_neg hne] at h ⊢
    by_cases hf : AccountValidator.isValidAccountNumber (jsTrim i) = true
    · simp only [hf, Bool.not_true, if_neg (by simp : ¬((false : Bool) = true))] at h ⊢
      by_cases ha : AccountValidator.isValidAmount a = true
      · simp only [ha, Bool.not_true, if_neg (by simp : ¬((false : Bool) = true))] at h ⊢
        cases hga : DataStore.getAccount s (jsTrim i) with
        | none => simp [hga]
        | some acc =>
          simp only [hga] at h ⊢
          rcases hu : DataStore.updateAccount s
            ⟨acc.account_number, AccountValidator.formatBalance (acc.balance + a)⟩
            with ⟨r, s2⟩
          cases r with
          | error e =>
            simp only [hu] at h ⊢
            have h2 := @updateAccount_error_store s
              ⟨acc.account_number, AccountValidator.formatBalance (acc.balance + a)⟩
              (by rw [hu]; rfl)
            rw [hu] at h2
            exact h2
          | ok u =>
            simp only [hu, Except.isOk, Except.toBool] at h
            cases h
      · simp [ha]
    · simp [hf]

theorem withdraw_store_cases {s : Store} (i : String) (a : ℚ) (hWF : Store.WF s) :
    (AccountService.withdraw s i a).2 = s ∨
      ∃ v, (AccountService.withdraw s i a).2 = mapSet s (jsTrim i) v := by
  rcases hr : (AccountService.withdraw s i a).1 with e | u
  · exact Or.inl (withdraw_error_store s i a (by rw [hr]; rfl))
  · -- a successful withdrawal: replay the branch structure to find the account
    rw [AccountService.withdraw] at hr
    by_cases hne : i = ""
    · simp [hne] at hr
    · simp only [if_neg hne] at hr
      by_cases hf : AccountValidator.isValidAccountNumber (jsTrim i) = true
      · simp only [hf, Bool.not_true, if_neg (by simp : ¬((false : Bool) = true))] at hr
        by_cases ha : AccountValidator.isValidAmount a = true
        · simp only [ha, Bool.not_true, if_neg (by simp : ¬((false : Bool) = true))] at hr
          cases hga : DataStore.getAccount s (jsTrim i) with
          | none => simp [hga] at hr
          | some acc =>
            simp only [hga] at hr
            by_cases hlt : acc.balance < a
            · simp [hlt] at hr
            · simp only [if_neg hlt] at hr
              have hkey : acc.account_number = jsTrim i := by
                obtain ⟨-, hmg⟩ := getAccount_eq hga
                have := (WF_entry hWF hmg).1
                rw [this, jsTrim_idem]
              refine Or.inr ⟨⟨acc.account_number,
                AccountValidator.formatBalance (AccountValidator.formatBalance (acc.balance - a))⟩, ?_⟩
              rw [AccountService.withdraw]
              simp only [if_neg hne, hf, Bool.not_true,
                if_neg (by simp : ¬((false : Bool) = true)), ha, hga, if_neg hlt]
              rcases hu : DataStore.updateAccount s
                ⟨acc.account_number, AccountValidator.formatBalance (acc.balance - a)⟩
                with ⟨r, s2⟩
              cases r with
              | error e =>
                rw [hu] at hr
                simp at hr
              | ok un =>
                simp only [hu]
                have := updateAccount_ok_store hu
                rw [this, hkey]
        · simp [ha] at hr
      · simp [hf] at hr

theorem deposit_store_cases {s : Store} (i : String) (a : ℚ) (hWF : Store.WF s) :
    (AccountService.deposit s i a).2 = s ∨
      ∃ v, (AccountService.deposit s i a).2 = mapSet s (jsTrim i) v := by
  rcases hr : (AccountService.deposit s i a).1 with e | u
  · exact Or.inl (deposit_error_store s i a (by rw [hr]; rfl))
  · rw [AccountService.deposit] at hr
    by_cases hne : i = ""
    · simp [hne] at hr
    · simp only [if_neg hne] at hr
      by_cases hf : AccountValidator.isValidAccountNumber (jsTrim i) = true
      · simp only [hf, Bool.not_true, if_neg (by simp : ¬((false : Bool) = true))] at hr
        by_cases ha : AccountValidator.isValidAmount a = true
        · simp only [ha, Bool.not_true, if_neg (by simp : ¬((false : Bool) = true))] at hr
          cases hga : DataStore.getAccount s (jsTrim i) with
          | none => simp [hga] at hr
          | some acc =>
            simp only [hga] at hr
            have hkey : acc.account_number = jsTrim i := by
              obtain ⟨-, hmg⟩ := getAccount_eq hga
              have := (WF_entry hWF hmg).1
              rw [this, jsTrim_idem]
            refine Or.inr ⟨⟨acc.account_number,
              AccountValidator.formatBalance (AccountValidator.formatBalance (acc.balance + a))⟩, ?_⟩
            rw [AccountService.deposit]
            simp only [if_neg hne, hf, Bool.not_true,
              if_neg (by simp : ¬((false : Bool) = true)), ha, hga]
            rcases hu : DataStore.updateAccount s
              ⟨acc.account_number, AccountValidator.formatBalance (acc.balance + a)⟩
              with ⟨r, s2⟩
            cases r with
            | error e =>
              rw [hu] at hr
              simp at hr
            | ok un =>
              simp only [hu]
              have := updateAccount_ok_store hu
              rw [this, hkey]
        · simp [ha] at hr
      · simp [hf] at hr

/-! Section: Invariant preservation -/

theorem StoreValid_mapSet {s : Store} {k : String} {v : Account}
    (hs : StoreValid s) (hv : (AccountValidator.validateAccount v).isValid = true) :
    StoreValid (mapSet s k v) := by
  intro p hp
  rcases mem_mapSet hp with h | h
  · rw [h]; exact hv
  · exact hs p h

theorem WF_mapSet {s : Store} {k : String} {v : Account}
    (hWF : Store.WF s) (hk : k = v.account_number) (htr : jsTrim k = k)
    (hv : (AccountValidator.validateAccount v).isValid = true)
    (hc : centsLike v.balance) : Store.WF (mapSet s k v) := by
  intro p hp
  rcases mem_mapSet hp with h | h
  · rw [h]; exact ⟨hk, htr, hv, hc⟩
  · exact hWF p h

theorem createAccountV_ok {n : String} {b : ℚ} {account : Account}
    (h : AccountValidator.createAccount n b = .ok account) :
    account = ⟨jsTrim n, AccountValidator.formatBalance b⟩ ∧
      (AccountValidator.validateAccount ⟨n, b⟩).isValid = true := by
  rw [AccountValidator.createAccount] at h
  by_cases hv : (AccountValidator.validateAccount ⟨n, b⟩).isValid
  · simp only [hv, Bool.not_true, if_neg (by simp : ¬((false : Bool) = true))] at h
    cases h
    exact ⟨rfl, hv⟩
  · simp [hv] at h

theorem WF_updateAccount {s : Store} (acc : Account) (hWF : Store.WF s) :
    Store.WF (DataStore.updateAccount s acc).2 := by
  by_cases hv : (AccountValidator.validateAccount acc).isValid = true
  · by_cases hh : mapHas s acc.account_number = true
    · rw [updateAccount_ok hv hh]
      obtain ⟨hnum, hbal⟩ := of_validateAccount_isValid hv
      -- the updated entry is keyed by a key that was already present, and on a
      -- well-formed store present keys are trimmed
      have htr : jsTrim acc.account_number = acc.account_number := by
        rw [mapHas, List.any_eq_true] at hh
        obtain ⟨p, hp, he⟩ := hh
        have he2 : p.1 = acc.account_number := by simpa using he
        obtain ⟨h1, h2, -, -⟩ := hWF p hp
        rw [← he2]
        exact h2
      exact WF_mapSet hWF rfl htr
        (validateAccount_isValid_of hnum (formatBalance_nonneg hbal))
        (centsLike_formatBalance _)
    · rw [DataStore.updateAccount]
      simp [hv, hh]
      exact hWF
  · rw [DataStore.updateAccount]
    simp [hv]
    exact hWF

theorem WF_createAccount {s : Store} (n : String) (b : ℚ) (hWF : Store.WF s) :
    Store.WF (DataStore.createAccount s n b).2 := by
  rw [DataStore.createAccount]
  by_cases hh : mapHas s (jsTrim n) = true
  · simp [hh]; exact hWF
  · cases hc : AccountValidator.createAccount (jsTrim n) b with
    | error e => simp [hh, hc]; exact hWF
    | ok account =>
      simp only [hh, hc, Bool.false_eq_true, if_neg (by simp : ¬(false = true))]
      obtain ⟨hacc, hv⟩ := createAccountV_ok hc
      obtain ⟨hnum, hbal⟩ := of_validateAccount_isValid hv
      have hnum2 : AccountValidator.isValidAccountNumber (jsTrim (jsTrim n)) = true := by
        rw [jsTrim_idem]
        exact hnum
      apply WF_mapSet hWF
      · rw [hacc, jsTrim_idem]
      · exact jsTrim_idem n
      · rw [hacc]
        exact validateAccount_isValid_of hnum2 (formatBalance_nonneg hbal)
      · rw [hacc]
        exact centsLike_formatBalance b
  
theorem WF_deleteAccount {s : Store} (n : String) (hWF : Store.WF s) :
    Store.WF (DataStore.deleteAccount s n).2 := by
  rw [DataStore.deleteAccount]
  by_cases hn : n = ""
  · simp [hn]; exact hWF
  · rw [if_neg hn]
    intro p hp
    exact hWF p (mem_mapErase hp)

/-! Section: The seeded initial store, evaluated -/

theorem seedCreate1 :
    AccountValidator.createAccount "123456789" 1000.00 = .ok ⟨"123456789", 1000.00⟩ := by
  have e : AccountValidator.formatBalance 1000.00 = 1000.00 :=
    formatBalance_of_centsLike ⟨100000, by norm_num⟩
  rw [AccountValidator.createAccount]
  rw [if_neg (by rw [validateAccount_isValid_of (by decide) (by norm_num)]; simp)]
  rw [show jsTrim "123456789" = "123456789" from by decide, e]

theorem seedCreate2 :
    AccountValidator.createAccount "987654321" 2500.50 = .ok ⟨"987654321", 2500.50⟩ := by
  have e : AccountValidator.formatBalance 2500.50 = 2500.50 :=
    formatBalance_of_centsLike ⟨250050, by norm_num⟩
  rw [AccountValidator.createAccount]
  rw [if_neg (by rw [validateAccount_isValid_of (by decide) (by norm_num)]; simp)]
  rw [show jsTrim "987654321" = "987654321" from by decide, e]

theorem seedCreate3 :
    AccountValidator.createAccount "555666777" 100.25 = .ok ⟨"555666777", 100.25⟩ := by
  have e : AccountValidator.formatBalance 100.25 = 100.25 :=
    formatBalance_of_centsLike ⟨10025, by norm_num⟩
  rw [AccountValidator.createAccount]
  rw [if_neg (by rw [validateAccount_isValid_of (by decide) (by norm_num)]; simp)]
  rw [show jsTrim "555666777" = "555666777" from by decide, e]

theorem seedCreate4 :
    AccountValidator.createAccount "111222333" 5000.00 = .ok ⟨"111222333", 5000.00⟩ := by
  have e : AccountValidator.formatBalance 5000.00 = 5000.00 :=
    formatBalance_of_centsLike ⟨500000, by norm_num⟩
  rw [AccountValidator.createAccount]
  rw [if_neg (by rw [validateAccount_isValid_of (by decide) (by norm_num)]; simp)]
  rw [show jsTrim "111222333" = "111222333" from by decide, e]

theorem seedCreate5 :
    AccountValidator.createAccount "999888777" 750.75 = .ok ⟨"999888777", 750.75⟩ := by
  have e : AccountValidator.formatBalance 750.75 = 750.75 :=
    formatBalance_of_centsLike ⟨75075, by norm_num⟩
  rw [AccountValidator.createAccount]
  rw [if_neg (by rw [validateAccount_isValid_of (by decide) (by norm_num)]; simp)]
  rw [show jsTrim "999888777" = "999888777" from by decide, e]

theorem initialStore_eq : initialStore =
    [("123456789", ⟨"123456789", 1000.00⟩), ("987654321", ⟨"987654321", 2500.50⟩),
     ("555666777", ⟨"555666777", 100.25⟩), ("111222333", ⟨"111222333", 5000.00⟩),
     ("999888777", ⟨"999888777", 750.75⟩)] := by
  have n12 : ("123456789" : String) ≠ "987654321" := by decide
  have n13 : ("123456789" : String) ≠ "555666777" := by decide
  have n14 : ("123456789" : String) ≠ "111222333" := by decide
  have n15 : ("123456789" : String) ≠ "999888777" := by decide
  have n23 : ("987654321" : String) ≠ "555666777" := by decide
  have n24 : ("987654321" : String) ≠ "111222333" := by decide
  have n25 : ("987654321" : String) ≠ "999888777" := by decide
  have n34 : ("555666777" : String) ≠ "111222333" := by decide
  have n35 : ("555666777" : String) ≠ "999888777" := by decide
  have n45 : ("111222333" : String) ≠ "999888777" := by decide
  rw [initialStore, testAccounts]
  simp only [List.foldl_cons, List.foldl_nil, seedCreate1, seedCreate2, seedCreate3,
    seedCreate4, seedCreate5]
  simp only [mapSet, if_neg n12, if_neg n13, if_neg n14, if_neg n15, if_neg n23,
    if_neg n24, if_neg n25, if_neg n34, if_neg n35, if_neg n45]

theorem initialStore_WF : Store.WF initialStore := by
  rw [initialStore_eq]
  intro p hp
  simp only [List.mem_cons, List.not_mem_nil, or_false] at hp
  rcases hp with rfl | rfl | rfl | rfl | rfl
  · exact ⟨rfl, by decide, validateAccount_isValid_of (by decide) (by norm_num),
      ⟨100000, by norm_num⟩⟩
  · exact ⟨rfl, by decide, validateAccount_isValid_of (by decide) (by norm_num),
      ⟨250050, by norm_num⟩⟩
  · exact ⟨rfl, by decide, validateAccount_isValid_of (by decide) (by norm_num),
      ⟨10025, by norm_num⟩⟩
  · exact ⟨rfl, by decide, validateAccount_isValid_of (by decide) (by norm_num),
      ⟨500000, by norm_num⟩⟩
  · exact ⟨rfl, by decide, validateAccount_isValid_of (by decide) (by norm_num),
      ⟨75075, by norm_num⟩⟩

/-- A small one-account store used as concrete input by several witnesses. -/
def oneStore : Store := [("123456789", ⟨"123456789", 1000⟩)]

theorem oneStore_WF : Store.WF oneStore := by
  intro p hp
  simp only [oneStore, List.mem_cons, List.not_mem_nil, or_false] at hp
  rw [hp]
  exact ⟨rfl, by decide, validateAccount_isValid_of (by decide) (by norm_num),
    ⟨100000, by norm_num⟩⟩

theorem oneStore_get : DataStore.getAccount oneStore "123456789" =
    some ⟨"123456789", 1000⟩ := by
  rw [DataStore.getAccount, if_neg (by decide : ¬("123456789" : String) = ""),
    show jsTrim "123456789" = "123456789" from by decide, oneStore, mapGet_cons]
  simp

/-! Section: The rounding function the spec describes, for the refinement claim C4 -/

/-- Stated from the spec wording: round half away from zero. -/
def roundHalfAwayFromZero (x : ℚ) : ℤ :=
  if 0 ≤ x then ⌊x + 1/2⌋ else -⌊-x + 1/2⌋

/-- Stated from the spec wording: `roundCurrency` rounds to 2 decimal places
using round-half-away-from-zero on the value scaled by 100. -/
def specRoundCurrency (n : ℚ) : ℚ :=
  (roundHalfAwayFromZero (n * 100) : ℚ) / 100

/-! Section: The extended number model with IEEE overflow, for claim C10

`EN` refines the exact rational idealisation by one float phenomenon: addition
and scaling-by-100 of two finite doubles overflow to `Infinity` when the exact
result reaches `2^1024 - 2^970` (the smallest magnitude that rounds to
`Infinity` under round-to-nearest-even).  `NaN` and negative infinity are not
modelled: the claim concerns non-negative finite inputs only. -/

/-- Smallest magnitude at which an exact result rounds to `Infinity` in IEEE-754
binary64 arithmetic. -/
def overflowThr : ℚ := 2 ^ 1024 - 2 ^ 970

inductive EN where
  | fin (q : ℚ)
  | inf
deriving DecidableEq, Repr

/-- Double addition with overflow to `Infinity`. -/
def EN.add : EN → EN → EN
  | .fin x, .fin y => if overflowThr ≤ x + y then .inf else .fin (x + y)
  | _, _ => .inf

/-- Model of `AccountValidator.isValidBalance` on the extended model: `isFinite` fails on
`Infinity`, so only non-negative finite values pass. -/
def isValidBalanceE : EN → Bool
  | .fin q => decide (0 ≤ q)
  | .inf => false

/-- Model of `AccountValidator.isValidAmount` on the extended model. -/
def isValidAmountE : EN → Bool
  | .fin q => decide (0 < q)
  | .inf => false

/-- Model of `AccountValidator.formatBalance` on the extended model:
`Math.round(b * 100) / 100` where the scaling overflows to `Infinity` past the
threshold and both `Math.round` and division map `Infinity` to `Infinity`. -/
def formatBalanceE : EN → EN
  | .fin q => if overflowThr ≤ q * 100 then .inf else .fin (AccountValidator.formatBalance q)
  | .inf => .inf

/-- Model of `Account` with a possibly non-finite balance. -/
structure AccountE where
  account_number : String
  balance : EN
deriving DecidableEq, Repr

abbrev StoreE := List (String × AccountE)

/-- Model of `AccountValidator.validateAccount` on the extended model. -/
def validateAccountE (account : AccountE) : ValidationResult :=
  let errors : List String :=
    (if account.account_number = "" then ["Account number is required"]
     else if !(AccountValidator.isValidAccountNumber account.account_number) then
       ["Account number must be a non-empty string with valid format"]
     else [])
    ++
    (if !(isValidBalanceE account.balance) then
       ["Balance must be a valid number (not NaN or Infinity)"]
     else [])
  { isValid := errors.isEmpty, errors := errors }

/-- Model of `DataStore.getAccount` on the extended model. -/
def DataStoreE.getAccount (s : StoreE) (accountNumber : String) : Option AccountE :=
  if accountNumber = "" then none
  else mapGet s (jsTrim accountNumber)

/-- Model of `DataStore.updateAccount` on the extended model. -/
def DataStoreE.updateAccount (s : StoreE) (account : AccountE) :
    Except Err Unit × StoreE :=
  let validation := validateAccountE account
  if !validation.isValid then
    (.error (.error ("Cannot update account: " ++ String.intercalate ", " validation.errors)), s)
  else if !(mapHas s account.account_number) then
    (.error (.error ("Account " ++ account.account_number ++ " does not exist")), s)
  else
    (.ok (), mapSet s account.account_number
      ⟨account.account_number, formatBalanceE account.balance⟩)

/-- Model of `AccountService.deposit` on the extended model: the balance arithmetic
`currentBalance + amount` is `EN.add`, which can overflow to `Infinity`. -/
def AccountServiceE.deposit (s : StoreE) (accountNumber : String) (amount : EN) :
    Except Err AccountE × StoreE :=
  if accountNumber = "" then (.error (.error "Account number must be a non-empty string"), s)
  else
    let trimmedAccountNumber := jsTrim accountNumber
    if !(AccountValidator.isValidAccountNumber trimmedAccountNumber) then
      (.error (.error "Invalid account number format"), s)
    else if !(isValidAmountE amount) then
      (.error (.invalidAmountError "Amount must be greater than zero"), s)
    else
      match DataStoreE.getAccount s trimmedAccountNumber with
      | none => (.error (.accountNotFoundError trimmedAccountNumber), s)
      | some account =>
        let newBalance := formatBalanceE (EN.add account.balance amount)
        let updatedAccount : AccountE := ⟨account.account_number, newBalance⟩
        match DataStoreE.updateAccount s updatedAccount with
        | (.error e, s1) => (.error e, s1)
        | (.ok _, s1) => (.ok updatedAccount, s1)

/-! Section: The reference model of JavaScript object identity, for claim C6

JavaScript objects live on a heap and variables hold references.  The `Map`
inside `DataStore` maps account numbers to references, and
`DataStore.getAccount` (line 69 of the source: `return this.accounts.get(...)
|| null`) hands back the stored reference itself, not a copy.  `RefState`
models exactly this: a heap of `Account` records addressed by `Ref`, and the
store keyed by account number holding references into the heap.  Mutating a
returned object (`obj.balance = v`) is a heap write at its reference. -/

abbrev Ref := Nat

abbrev RefHeap := List (Ref × Account)

structure RefState where
  heap : RefHeap
  next : Ref
  store : List (String × Ref)
deriving Repr

/-- The seeded initial state in the reference model: one heap object per seeded
account. -/
def initialRefState : RefState :=
  testAccounts.foldl
    (fun st p =>
      match AccountValidator.createAccount p.1 p.2 with
      | .ok account =>
        ⟨st.heap ++ [(st.next, account)], st.next + 1, mapSet st.store p.1 st.next⟩
      | .error _ => st)
    ⟨[], 0, []⟩

/-- Dereference. -/
def heapRead (h : RefHeap) (r : Ref) : Option Account :=
  mapGet h r

/-- Model of `DataStore.getAccount` in the reference model: returns the reference the
`Map` stores (the source returns the stored object itself). -/
def RefState.getAccountRef (st : RefState) (accountNumber : String) : Option Ref :=
  if accountNumber = "" then none
  else mapGet st.store (jsTrim accountNumber)

/-- A caller mutating `obj.balance = v` on the object at reference `r`. -/
def RefState.setBalanceThroughRef (st : RefState) (r : Ref) (v : ℚ) : RefState :=
  match heapRead st.heap r with
  | some a => ⟨mapSet st.heap r ⟨a.account_number, v⟩, st.next, st.store⟩
  | none => st

/-- The `Account` the Store currently holds under key `k` (the stored reference,
dereferenced). -/
def RefState.storedAccount (st : RefState) (k : String) : Option Account :=
  match mapGet st.store k with
  | some r => heapRead st.heap r
  | none => none

theorem initialRefState_eq : initialRefState =
    ⟨[(0, ⟨"123456789", 1000.00⟩), (1, ⟨"987654321", 2500.50⟩),
      (2, ⟨"555666777", 100.25⟩), (3, ⟨"111222333", 5000.00⟩),
      (4, ⟨"999888777", 750.75⟩)],
     5,
     [("123456789", 0), ("987654321", 1), ("555666777", 2), ("111222333", 3),
      ("999888777", 4)]⟩ := by
  have n12 : ("123456789" : String) ≠ "987654321" := by decide
  have n13 : ("123456789" : String) ≠ "555666777" := by decide
  have n14 : ("123456789" : String) ≠ "111222333" := by decide
  have n15 : ("123456789" : String) ≠ "999888777" := by decide
  have n23 : ("987654321" : String) ≠ "555666777" := by decide
  have n24 : ("987654321" : String) ≠ "111222333" := by decide
  have n25 : ("987654321" : String) ≠ "999888777" := by decide
  have n34 : ("555666777" : String) ≠ "111222333" := by decide
  have n35 : ("555666777" : String) ≠ "999888777" := by decide
  have n45 : ("111222333" : String) ≠ "999888777" := by decide
  rw [initialRefState, testAccounts]
  simp only [List.foldl_cons, List.foldl_nil, seedCreate1, seedCreate2, seedCreate3,
    seedCreate4, seedCreate5]
  simp only [mapSet, if_neg n12, if_neg n13, if_neg n14, if_neg n15, if_neg n23,
    if_neg n24, if_neg n25, if_neg n34, if_neg n35, if_neg n45]
  rfl

/-- In the reference model, the reference handed out by a Store read is
exactly the stored reference, so a field write through it lands on the stored
account. -/
theorem getAccountRef_alias {st : RefState} {i : String} {r : Ref} {acc : Account}
    (v : ℚ) (hr : st.getAccountRef i = some r) (ha : heapRead st.heap r = some acc) :
    (st.setBalanceThroughRef r v).storedAccount (jsTrim i) =
      some ⟨acc.account_number, v⟩ := by
  rw [RefState.getAccountRef] at hr
  by_cases hi : i = ""
  · rw [if_pos hi] at hr; cases hr
  · rw [if_neg hi] at hr
    rw [RefState.setBalanceThroughRef, ha, RefState.storedAccount]
    simp only [hr]
    rw [heapRead, mapGet_mapSet_self]

/-! Section: Claim theorems -/

/-- C7: `roundCurrency` (`formatBalance` in the code) is idempotent: for every
finite `x`, `formatBalance (formatBalance x) = formatBalance x`. -/
theorem c7_formatBalance_idempotent (x : ℚ) :
    AccountValidator.formatBalance (AccountValidator.formatBalance x) =
      AccountValidator.formatBalance x :=
  formatBalance_formatBalance x

/-- C4 counterexample: the claim quantifies over every finite number, but at
`n = -0.005` the code (`Math.round`, which sends `-0.5` to `-0`, i.e. rounds
halves toward `+∞`) yields `0`, while round-half-away-from-zero scaled by 100
yields `-0.01`. -/
theorem c4_counterexample :
    AccountValidator.formatBalance (-(1/200) : ℚ) = 0 ∧
    specRoundCurrency (-(1/200) : ℚ) = -(1/100) ∧
    AccountValidator.formatBalance (-(1/200) : ℚ) ≠ specRoundCurrency (-(1/200) : ℚ) := by
  have h1 : AccountValidator.formatBalance (-(1/200) : ℚ) = 0 := by
    rw [formatBalance_eq (k := 0) (by norm_num) (by norm_num)]
    norm_num
  have h2 : specRoundCurrency (-(1/200) : ℚ) = -(1/100) := by
    rw [specRoundCurrency, roundHalfAwayFromZero,
      if_neg (by norm_num : ¬(0 : ℚ) ≤ -(1/200) * 100)]
    rw [show (-(-(1/200 : ℚ) * 100) + 1/2) = 1 by norm_num]
    rw [show ⌊(1 : ℚ)⌋ = 1 from Int.floor_one]
    norm_num
  exact ⟨h1, h2, by rw [h1, h2]; norm_num⟩

/-- C4 (amended): for every finite `n ≥ 0` — which covers every balance the
system stores — `formatBalance n` equals the round-half-away-from-zero of the spec
at two decimals, and the three observed values hold; for negative `n` the code
rounds halves toward `+∞` instead (see the counterexample). -/
theorem c4_formatBalance_rounding :
    (∀ n : ℚ, 0 ≤ n → AccountValidator.formatBalance n = specRoundCurrency n) ∧
    AccountValidator.formatBalance (1/200 : ℚ) = 1/100 ∧
    AccountValidator.formatBalance (100.123 : ℚ) = 100.12 ∧
    AccountValidator.formatBalance (100.126 : ℚ) = 100.13 := by
  refine ⟨?_, ?_, ?_, ?_⟩
  · intro n hn
    rw [specRoundCurrency, roundHalfAwayFromZero, if_pos (by positivity),
      AccountValidator.formatBalance, jround]
  · rw [formatBalance_eq (k := 1) (by norm_num) (by norm_num)]
    norm_num
  · rw [formatBalance_eq (k := 10012) (by norm_num) (by norm_num)]
    norm_num
  · rw [formatBalance_eq (k := 10013) (by norm_num) (by norm_num)]
    norm_num

/-- C4 witness: the amended theorem applied at the concrete input `n = 5`. -/
theorem c4_witness :
    AccountValidator.formatBalance (5 : ℚ) = specRoundCurrency 5 :=
  c4_formatBalance_rounding.1 5 (by norm_num)

/-- C2: every account in the Store passes the full-object check of the validator:
the predicate holds of the seeded initial state and is preserved by every Store
operation (create, update, delete). -/
theorem c2_store_always_valid :
    StoreValid initialStore ∧
    (∀ (s : Store) (n : String) (b : ℚ),
      StoreValid s → StoreValid (DataStore.createAccount s n b).2) ∧
    (∀ (s : Store) (acc : Account),
      StoreValid s → StoreValid (DataStore.updateAccount s acc).2) ∧
    (∀ (s : Store) (n : String),
      StoreValid s → StoreValid (DataStore.deleteAccount s n).2) := by
  refine ⟨StoreValid_of_WF initialStore_WF, ?_, ?_, ?_⟩
  · intro s n b hs
    rw [DataStore.createAccount]
    by_cases hh : mapHas s (jsTrim n) = true
    · rw [if_pos hh]
      exact hs
    · rw [if_neg hh]
      cases hc : AccountValidator.createAccount (jsTrim n) b with
      | error e => exact hs
      | ok account =>
        obtain ⟨hacc, hv⟩ := createAccountV_ok hc
        obtain ⟨hnum, hbal⟩ := of_validateAccount_isValid hv
        apply StoreValid_mapSet hs
        rw [hacc]
        exact validateAccount_isValid_of
          (by rw [isValidAccountNumber_jsTrim]; exact hnum)
          (formatBalance_nonneg hbal)
  · intro s acc hs
    by_cases hv : (AccountValidator.validateAccount acc).isValid = true
    · by_cases hh : mapHas s acc.account_number = true
      · rw [updateAccount_ok hv hh]
        obtain ⟨hnum, hbal⟩ := of_validateAccount_isValid hv
        exact StoreValid_mapSet hs
          (validateAccount_isValid_of hnum (formatBalance_nonneg hbal))
      · have hh2 : mapHas s acc.account_number = false := by simpa using hh
        rw [DataStore.updateAccount]
        rw [if_neg (by simp [hv]), if_pos (by simp [hh2])]
        exact hs
    · rw [DataStore.updateAccount]
      rw [if_pos (by simp [hv])]
      exact hs
  · intro s n hs
    rw [DataStore.deleteAccount]
    by_cases hn : n = ""
    · rw [if_pos hn]
      exact hs
    · rw [if_neg hn]
      intro p hp
      exact hs p (mem_mapErase hp)

/-- C2 witness: the theorem applied at concrete inputs, the `StoreValid`
hypotheses discharged at the seeded store and at `oneStore`. -/
theorem c2_witness :
    StoreValid (DataStore.createAccount initialStore "222333444" 5).2 ∧
    StoreValid (DataStore.updateAccount oneStore ⟨"123456789", 7⟩).2 ∧
    StoreValid (DataStore.deleteAccount oneStore "123456789").2 :=
  ⟨c2_store_always_valid.2.1 initialStore "222333444" 5 c2_store_always_valid.1,
   c2_store_always_valid.2.2.1 oneStore ⟨"123456789", 7⟩ (StoreValid_of_WF oneStore_WF),
   c2_store_always_valid.2.2.2 oneStore "123456789" (StoreValid_of_WF oneStore_WF)⟩

/-- C3: a failed operation leaves the Store unchanged.  `getBalance` is a pure
read (its embedding does not even return a store); for the four mutating
operations, an error result comes with the unchanged store. -/
theorem c3_failed_op_preserves_store :
    ∀ (s : Store) (i n : String) (a b : ℚ) (acc : Account),
    ((AccountService.withdraw s i a).1.isOk = false →
      (AccountService.withdraw s i a).2 = s) ∧
    ((AccountService.deposit s i a).1.isOk = false →
      (AccountService.deposit s i a).2 = s) ∧
    ((DataStore.createAccount s n b).1.isOk = false →
      (DataStore.createAccount s n b).2 = s) ∧
    ((DataStore.updateAccount s acc).1.isOk = false →
      (DataStore.updateAccount s acc).2 = s) :=
  fun s i n a b acc =>
    ⟨withdraw_error_store s i a, deposit_error_store s i a,
     @createAccount_error_store s n b, @updateAccount_error_store s acc⟩

/-- C3 witness: concrete failing calls (insufficient funds, invalid identifier
format, duplicate creation, unknown account) leave the one-account store
unchanged. -/
theorem c3_witness :
    (AccountService.withdraw oneStore "123456789" 2000).2 = oneStore ∧
    (AccountService.deposit oneStore "12345" 5).2 = oneStore ∧
    (DataStore.createAccount oneStore "123456789" 5).2 = oneStore ∧
    (DataStore.updateAccount oneStore ⟨"999999999", 5⟩).2 = oneStore := by
  have hw : AccountService.withdraw oneStore "123456789" 2000 =
      (.error (.insufficientFundsError (jsTrim "123456789") 2000 1000), oneStore) :=
    withdraw_insufficient oneStore_WF oneStore_get (by norm_num) (by norm_num)
  have hd : (AccountService.deposit oneStore "12345" 5).1.isOk = false := by
    rw [AccountService.deposit, if_neg (by decide : ¬("12345" : String) = "")]
    simp only [show AccountValidator.isValidAccountNumber (jsTrim "12345") = false
      from by decide]
    rfl
  have hc : (DataStore.createAccount oneStore "123456789" 5).1.isOk = false := by
    rw [DataStore.createAccount]
    simp only [show jsTrim "123456789" = "123456789" from by decide,
      show mapHas oneStore "123456789" = true from by decide]
    rfl
  have hu : (DataStore.updateAccount oneStore ⟨"999999999", 5⟩).1.isOk = false := by
    rw [DataStore.updateAccount]
    simp only [show (AccountValidator.validateAccount ⟨"999999999", 5⟩).isValid = true
      from validateAccount_isValid_of (by decide) (by norm_num),
      show mapHas oneStore "999999999" = false from by decide]
    rfl
  exact ⟨(c3_failed_op_preserves_store oneStore "123456789" "x" 2000 5 ⟨"x", 0⟩).1
      (by rw [hw]; rfl),
    (c3_failed_op_preserves_store oneStore "12345" "x" 5 5 ⟨"x", 0⟩).2.1 hd,
    (c3_failed_op_preserves_store oneStore "x" "123456789" 5 5 ⟨"x", 0⟩).2.2.1 hc,
    (c3_failed_op_preserves_store oneStore "x" "x" 5 5 ⟨"999999999", 5⟩).2.2.2 hu⟩

/-- C9: `DataStore.updateAccount` looks its key up untrimmed, unlike
get/create/delete; an account object whose identifier carries surrounding
whitespace — but whose trimmed form is valid and present in a well-formed
store — therefore fails with the does-not-exist error, leaving the store
unchanged. -/
theorem c9_update_untrimmed_notfound :
    ∀ (s : Store) (acc : Account), Store.WF s →
    jsTrim acc.account_number ≠ acc.account_number →
    AccountValidator.isValidAccountNumber acc.account_number = true →
    0 ≤ acc.balance →
    mapHas s (jsTrim acc.account_number) = true →
    DataStore.updateAccount s acc =
      (.error (.error ("Account " ++ acc.account_number ++ " does not exist")), s) := by
  intro s acc hWF hws hnum hbal hpresent
  have hv : (AccountValidator.validateAccount acc).isValid = true :=
    validateAccount_isValid_of hnum hbal
  have hhas : mapHas s acc.account_number = false := by
    rw [← Bool.not_eq_true]
    intro h
    rw [mapHas, List.any_eq_true] at h
    obtain ⟨p, hp, he⟩ := h
    have he2 : p.1 = acc.account_number := by simpa using he
    obtain ⟨-, h2, -, -⟩ := hWF p hp
    rw [he2] at h2
    exact hws h2
  rw [DataStore.updateAccount]
  rw [if_neg (by simp [hv]), if_pos (by simp [hhas])]

/-- C9 witness: the theorem applied to the one-account store and the account
object `{" 123456789 ", 5}`. -/
theorem c9_witness :
    DataStore.updateAccount oneStore ⟨" 123456789 ", 5⟩ =
      (.error (.error ("Account " ++ " 123456789 " ++ " does not exist")), oneStore) :=
  c9_update_untrimmed_notfound oneStore ⟨" 123456789 ", 5⟩ oneStore_WF
    (by decide) (by decide) (by norm_num) (by decide)

/-- C1: for a stored account with balance `b` and a valid positive amount `a`,
withdraw fails with `InsufficientFunds` exactly when `a > b` (strict); in
particular withdrawing exactly `b` succeeds with balance `0`, and withdrawing
`b + 0.01` fails with `InsufficientFunds`. -/
theorem c1_withdraw_insufficient_iff :
    ∀ (s : Store) (i : String) (a : ℚ) (acc : Account),
    Store.WF s → DataStore.getAccount s i = some acc →
    AccountValidator.isValidAmount a = true →
    (((AccountService.withdraw s i a).1 =
        .error (.insufficientFundsError (jsTrim i) a acc.balance)) ↔ acc.balance < a) ∧
    (0 < acc.balance →
      (AccountService.withdraw s i acc.balance).1 = .ok ⟨acc.account_number, 0⟩) ∧
    ((AccountService.withdraw s i (acc.balance + 1/100)).1 =
      .error (.insufficientFundsError (jsTrim i) (acc.balance + 1/100) acc.balance)) := by
  intro s i a acc hWF hget hamt
  have ha : 0 < a := isValidAmount_iff.1 hamt
  have hbal : 0 ≤ acc.balance := (withdraw_facts hWF hget).2.2.2.2.1
  refine ⟨⟨?_, ?_⟩, ?_, ?_⟩
  · intro h
    by_contra hnlt
    rw [not_lt] at hnlt
    rw [withdraw_ok hWF hget ha hnlt] at h
    simp at h
  · intro hlt
    rw [withdraw_insufficient hWF hget ha hlt]
  · intro hbpos
    rw [withdraw_ok hWF hget hbpos (le_refl _)]
    simp only [sub_self]
    rw [formatBalance_of_centsLike ⟨0, by norm_num⟩]
  · rw [withdraw_insufficient hWF hget (by linarith) (by linarith)]

/-- C1 witness: on the one-account store (balance 1000), withdrawing 1500 fails
with `InsufficientFunds`, withdrawing the exact balance yields balance 0, and
withdrawing a cent more than the balance fails. -/
theorem c1_witness :
    (((AccountService.withdraw oneStore "123456789" 1500).1 =
        .error (.insufficientFundsError (jsTrim "123456789") 1500 (1000 : ℚ))) ↔
      ((1000 : ℚ) < 1500)) ∧
    ((0 : ℚ) < 1000 →
      (AccountService.withdraw oneStore "123456789" 1000).1 = .ok ⟨"123456789", 0⟩) ∧
    ((AccountService.withdraw oneStore "123456789" ((1000 : ℚ) + 1/100)).1 =
      .error (.insufficientFundsError (jsTrim "123456789") ((1000 : ℚ) + 1/100) 1000)) :=
  c1_withdraw_insufficient_iff oneStore "123456789" 1500 ⟨"123456789", 1000⟩
    oneStore_WF oneStore_get (isValidAmount_iff.2 (by norm_num))

/-- A two-account store used by the isolation witness. -/
def twoStore : Store :=
  [("123456789", ⟨"123456789", 1000⟩), ("987654321", ⟨"987654321", 5⟩)]

theorem twoStore_WF : Store.WF twoStore := by
  intro p hp
  simp only [twoStore, List.mem_cons, List.not_mem_nil, or_false] at hp
  rcases hp with rfl | rfl
  · exact ⟨rfl, by decide, validateAccount_isValid_of (by decide) (by norm_num),
      ⟨100000, by norm_num⟩⟩
  · exact ⟨rfl, by decide, validateAccount_isValid_of (by decide) (by norm_num),
      ⟨500, by norm_num⟩⟩

/-- C8: operations on one account never change the stored value of another:
for any two distinct keys, withdraw and deposit on the first leave the entry at
the second untouched (`getBalance` performs no write by construction). -/
theorem c8_account_isolation :
    ∀ (s : Store) (i k : String) (a : ℚ) (accB : Account),
    Store.WF s → mapGet s k = some accB → k ≠ jsTrim i →
    mapGet (AccountService.withdraw s i a).2 k = some accB ∧
    mapGet (AccountService.deposit s i a).2 k = some accB := by
  intro s i k a accB hWF hB hk
  constructor
  · rcases withdraw_store_cases i a hWF with h | ⟨v, h⟩
    · rw [h]; exact hB
    · rw [h, mapGet_mapSet_ne _ _ hk]; exact hB
  · rcases deposit_store_cases i a hWF with h | ⟨v, h⟩
    · rw [h]; exact hB
    · rw [h, mapGet_mapSet_ne _ _ hk]; exact hB

/-- C8 witness: withdrawing and depositing on the first account of a
two-account store leaves the second untouched. -/
theorem c8_witness :
    mapGet (AccountService.withdraw twoStore "123456789" 10).2 "987654321" =
      some ⟨"987654321", 5⟩ ∧
    mapGet (AccountService.deposit twoStore "123456789" 10).2 "987654321" =
      some ⟨"987654321", 5⟩ :=
  c8_account_isolation twoStore "123456789" "987654321" 10 ⟨"987654321", 5⟩
    twoStore_WF (by decide) (by decide)

/-- C5 counterexample: with stored balance 1000 and the valid amount 0.005
(half a cent), deposit rounds the balance up to 1000.01 and the following
withdraw rounds up again, leaving 1000.01 ≠ 1000: the roundtrip does not
restore the original rounded balance. -/
theorem c5_counterexample :
    DataStore.getAccount
        (AccountService.withdraw
          (AccountService.deposit oneStore "123456789" (1/200)).2
          "123456789" (1/200)).2
        "123456789" = some ⟨"123456789", 100001/100⟩ ∧
    (100001/100 : ℚ) ≠ 1000 := by
  have hfb1 : AccountValidator.formatBalance ((1000 : ℚ) + 1/200) = 100001/100 := by
    rw [formatBalance_eq (k := 100001) (by norm_num) (by norm_num)]
    norm_num
  have hdep := deposit_ok oneStore_WF oneStore_get (by norm_num : (0:ℚ) < 1/200)
  rw [hfb1] at hdep
  have hs1 : (AccountService.deposit oneStore "123456789" (1/200)).2 =
      [("123456789", ⟨"123456789", 100001/100⟩)] := by
    rw [hdep]
    rfl
  have hWF1 : Store.WF [("123456789", (⟨"123456789", 100001/100⟩ : Account))] := by
    intro p hp
    simp only [List.mem_cons, List.not_mem_nil, or_false] at hp
    rw [hp]
    exact ⟨rfl, by decide, validateAccount_isValid_of (by decide) (by norm_num),
      ⟨100001, by norm_num⟩⟩
  have hget1 : DataStore.getAccount [("123456789", (⟨"123456789", 100001/100⟩ : Account))]
      "123456789" = some ⟨"123456789", 100001/100⟩ := by
    rw [DataStore.getAccount, if_neg (by decide : ¬("123456789" : String) = ""),
      show jsTrim "123456789" = "123456789" from by decide, mapGet_cons]
    simp
  have hfb2 : AccountValidator.formatBalance ((100001/100 : ℚ) - 1/200) = 100001/100 := by
    rw [formatBalance_eq (k := 100001) (by norm_num) (by norm_num)]
    norm_num
  have hwd := withdraw_ok hWF1 hget1 (by norm_num : (0:ℚ) < 1/200)
    (by norm_num : (1/200 : ℚ) ≤ 100001/100)
  rw [hfb2] at hwd
  constructor
  · rw [hs1, hwd]
    rw [DataStore.getAccount, if_neg (by decide : ¬("123456789" : String) = ""),
      show jsTrim "123456789" = "123456789" from by decide]
    rw [mapGet_mapSet_self]
  · norm_num

/-- C5 (amended): deposit-then-withdraw of the same amount restores the original
balance exactly, provided the amount is a whole number of hundredths (as every
real currency amount is); for amounts with a fractional half-cent the roundtrip
drifts by one cent (see the counterexample). -/
theorem c5_deposit_withdraw_roundtrip :
    ∀ (s : Store) (i : String) (a : ℚ) (acc : Account),
    Store.WF s → DataStore.getAccount s i = some acc →
    AccountValidator.isValidAmount a = true → centsLike a →
    (AccountService.withdraw (AccountService.deposit s i a).2 i a).1 = .ok acc ∧
    DataStore.getAccount
      (AccountService.withdraw (AccountService.deposit s i a).2 i a).2 i = some acc := by
  intro s i a acc hWF hget hamt hcents
  obtain ⟨n, b⟩ := acc
  have ha : 0 < a := isValidAmount_iff.1 hamt
  obtain ⟨hne, hmg, hn, hfmt, hbal, hc, hget2, hhas⟩ := withdraw_facts hWF hget
  have hnum : AccountValidator.isValidAccountNumber n = true := by
    rw [show n = ((⟨n, b⟩ : Account)).account_number from rfl, hn]
    exact hfmt
  have hsum : centsLike (b + a) := by
    obtain ⟨kb, hkb⟩ := hc
    obtain ⟨ka, hka⟩ := hcents
    exact ⟨kb + ka, by rw [add_mul, hkb, hka]; push_cast; ring⟩
  have hfb1 : AccountValidator.formatBalance (b + a) = b + a :=
    formatBalance_of_centsLike hsum
  have hdep := deposit_ok hWF hget ha
  simp only at hdep
  rw [hfb1] at hdep
  have htrn : jsTrim n = n := by
    rw [show n = ((⟨n, b⟩ : Account)).account_number from rfl, hn, jsTrim_idem]
  have hWF1 : Store.WF (mapSet s n (⟨n, b + a⟩ : Account)) :=
    WF_mapSet hWF rfl htrn
      (validateAccount_isValid_of hnum (by linarith))
      hsum
  have hget1 : DataStore.getAccount (mapSet s n (⟨n, b + a⟩ : Account)) i =
      some ⟨n, b + a⟩ := by
    rw [DataStore.getAccount, if_neg hne, ← hn]
    exact mapGet_mapSet_self _ _ _
  have hwd := withdraw_ok hWF1 hget1 ha (by simp only; linarith)
  simp only [add_sub_cancel_right] at hwd
  have hfb2 : AccountValidator.formatBalance b = b := formatBalance_of_centsLike hc
  rw [hfb2] at hwd
  constructor
  · rw [hdep]
    simp only
    rw [hwd]
  · rw [hdep]
    simp only
    rw [hwd]
    simp only
    rw [DataStore.getAccount, if_neg hne, ← hn]
    exact mapGet_mapSet_self _ _ _

/-- C5 witness: deposit then withdraw of 5.25 on the one-account store restores
the stored account exactly. -/
theorem c5_witness :
    (AccountService.withdraw
        (AccountService.deposit oneStore "123456789" 5.25).2 "123456789" 5.25).1 =
      .ok ⟨"123456789", 1000⟩ ∧
    DataStore.getAccount
        (AccountService.withdraw
          (AccountService.deposit oneStore "123456789" 5.25).2 "123456789" 5.25).2
        "123456789" = some ⟨"123456789", 1000⟩ :=
  c5_deposit_withdraw_roundtrip oneStore "123456789" 5.25 ⟨"123456789", 1000⟩
    oneStore_WF oneStore_get (isValidAmount_iff.2 (by norm_num)) ⟨525, by norm_num⟩

/-- C10: a deposit of a valid (finite, positive) amount on an existing account
is not guaranteed to succeed: when `balance + amount` overflows to `Infinity`,
the computed new balance is non-finite, the validation in `updateAccount` rejects it,
and the call fails with the validation error — not `InvalidAmountError` —
leaving the store unchanged. -/
theorem c10_deposit_overflow :
    ∀ (s : StoreE) (i : String) (acc : AccountE) (b a : ℚ),
    DataStoreE.getAccount s i = some acc →
    acc.balance = .fin b →
    acc.account_number = jsTrim i →
    AccountValidator.isValidAccountNumber (jsTrim i) = true →
    0 < a →
    overflowThr ≤ b + a →
    AccountServiceE.deposit s i (.fin a) =
      (.error (.error ("Cannot update account: " ++
        "Balance must be a valid number (not NaN or Infinity)")), s) ∧
    ∀ m, (AccountServiceE.deposit s i (.fin a)).1 ≠ .error (.invalidAmountError m) := by
  intro s i acc b a hget hb hn hfmt ha hover
  have hne : i ≠ "" := by
    intro he
    rw [DataStoreE.getAccount, if_pos he] at hget
    cases hget
  have hmg : mapGet s (jsTrim i) = some acc := by
    rw [DataStoreE.getAccount, if_neg hne] at hget
    exact hget
  have hget2 : DataStoreE.getAccount s (jsTrim i) = some acc := by
    rw [DataStoreE.getAccount, if_neg (ne_empty_of_isValidAccountNumber hfmt), jsTrim_idem]
    exact hmg
  have hfbe : formatBalanceE (EN.add acc.balance (.fin a)) = .inf := by
    rw [hb, EN.add, if_pos hover]
    rfl
  have hne2 : ¬(acc.account_number = "") := by
    rw [hn]
    exact ne_empty_of_isValidAccountNumber hfmt
  have hnum : AccountValidator.isValidAccountNumber acc.account_number = true := by
    rw [hn]
    exact hfmt
  have hv3 : validateAccountE ⟨acc.account_number, .inf⟩ =
      ⟨false, ["Balance must be a valid number (not NaN or Infinity)"]⟩ := by
    rw [validateAccountE]
    simp [hne2, hnum, isValidBalanceE]
  have hupd : DataStoreE.updateAccount s ⟨acc.account_number, .inf⟩ =
      (.error (.error ("Cannot update account: " ++
        "Balance must be a valid number (not NaN or Infinity)")), s) := by
    rw [DataStoreE.updateAccount, hv3]
    simp
    decide
  have hmain : AccountServiceE.deposit s i (.fin a) =
      (.error (.error ("Cannot update account: " ++
        "Balance must be a valid number (not NaN or Infinity)")), s) := by
    rw [AccountServiceE.deposit, if_neg hne]
    simp only [hfmt, Bool.not_true, if_neg (by simp : ¬((false : Bool) = true)),
      show isValidAmountE (.fin a) = true by simp [isValidAmountE, ha],
      hget2, hfbe, hupd]
  exact ⟨hmain, fun m h => by rw [hmain] at h; simp at h⟩

/-- A one-account store in the extended model whose balance sits one doubling
below the overflow threshold. -/
def bigStoreE : StoreE := [("123456789", ⟨"123456789", .fin (2 ^ 1023)⟩)]

/-- C10 witness: the theorem applied to `bigStoreE` with amount `2 ^ 1023`, whose
sum `2 ^ 1024` overflows. -/
theorem c10_witness :
    AccountServiceE.deposit bigStoreE "123456789" (.fin (2 ^ 1023)) =
      (.error (.error ("Cannot update account: " ++
        "Balance must be a valid number (not NaN or Infinity)")), bigStoreE) :=
  (c10_deposit_overflow bigStoreE "123456789" ⟨"123456789", .fin (2 ^ 1023)⟩
    (2 ^ 1023) (2 ^ 1023)
    (by rw [DataStoreE.getAccount, if_neg (by decide : ¬("123456789" : String) = ""),
          show jsTrim "123456789" = "123456789" from by decide, bigStoreE, mapGet_cons]
        simp)
    rfl
    (by decide)
    (by decide)
    (by positivity)
    (by rw [overflowThr]; norm_num)).1

/-- C6 counterexample: in the reference model — where JavaScript object
identity is explicit — the Store method `getAccount("123456789")` returns the stored
reference `0`; writing balance `0` through that reference changes the Account
held in the Store from balance 1000 to balance 0.  Reads are aliases, not
copies. -/
theorem c6_counterexample :
    initialRefState.getAccountRef "123456789" = some 0 ∧
    initialRefState.storedAccount "123456789" = some ⟨"123456789", 1000.00⟩ ∧
    (initialRefState.setBalanceThroughRef 0 0).storedAccount "123456789" =
      some ⟨"123456789", 0⟩ ∧
    (initialRefState.setBalanceThroughRef 0 0).storedAccount "123456789" ≠
      initialRefState.storedAccount "123456789" := by
  have h1 : initialRefState.getAccountRef "123456789" = some 0 := by
    rw [initialRefState_eq, RefState.getAccountRef,
      if_neg (by decide : ¬("123456789" : String) = ""),
      show jsTrim "123456789" = "123456789" from by decide, mapGet_cons]
    simp
  have h2 : initialRefState.storedAccount "123456789" =
      some ⟨"123456789", 1000.00⟩ := by
    rw [initialRefState_eq]
    simp [RefState.storedAccount, heapRead, mapGet_cons]
  have h3 : (initialRefState.setBalanceThroughRef 0 0).storedAccount "123456789" =
      some ⟨"123456789", 0⟩ := by
    rw [initialRefState_eq]
    simp [RefState.setBalanceThroughRef, RefState.storedAccount, heapRead,
      mapGet_cons, mapSet]
  refine ⟨h1, h2, h3, ?_⟩
  rw [h2, h3]
  intro h
  simp only [Option.some.injEq, Account.mk.injEq] at h
  have := h.2
  norm_num at this

/-- C6 (amended): reads from the Store return the stored object itself — an
alias, not a copy: writing a balance through the reference returned by the
Store get method changes the Account held in the Store to exactly that balance. -/
theorem c6_store_reads_alias :
    ∀ (st : RefState) (i : String) (r : Ref) (acc : Account) (v : ℚ),
    st.getAccountRef i = some r → heapRead st.heap r = some acc →
    (st.setBalanceThroughRef r v).storedAccount (jsTrim i) =
      some ⟨acc.account_number, v⟩ :=
  fun st i r acc v hr ha => @getAccountRef_alias st i r acc v hr ha

/-- C6 witness: the amended theorem applied to the seeded reference state. -/
theorem c6_witness :
    (initialRefState.setBalanceThroughRef 0 7).storedAccount (jsTrim "123456789") =
      some ⟨"123456789", 7⟩ :=
  c6_store_reads_alias initialRefState "123456789" 0 ⟨"123456789", 1000.00⟩ 7
    (by rw [initialRefState_eq, RefState.getAccountRef,
          if_neg (by decide : ¬("123456789" : String) = ""),
          show jsTrim "123456789" = "123456789" from by decide, mapGet_cons]
        simp)
    (by rw [initialRefState_eq]
        simp [heapRead, mapGet_cons])

